import Mathlib

/-!
Verification of the monarch portfolio repository.

We shallowly embed the Python sources into Lean: Python/JSON values become
the inductive type `JVal`, Python dictionaries become association lists,
fallible dictionary operations (attribute errors, type errors) become
`Option`-valued functions, and the effectful sync/pipeline routines become
pure functions from an oracle environment to an event trace plus outcome.
-/

namespace Monarch

/-- A JSON / Python value as it occurs in the portfolio data. Numbers are
modelled as rationals (the scripts never do arithmetic on them, only
projection and comparison). -/
inductive JVal where
  | null
  | bool (b : Bool)
  | num (q : ℚ)
  | str (s : String)
  | arr (xs : List JVal)
  | obj (fs : List (String × JVal))

/-- A Python dict with string keys, as an association list (JSON parsing
produces unique keys, and insertion order is significant in Python). -/
abbrev Dict := List (String × JVal)

/-- Key lookup in a dict (first binding wins; keys are unique anyway). -/
def lookupKey : Dict → String → Option JVal
  | [], _ => none
  | (k, v) :: rest, k' => if k = k' then some v else lookupKey rest k'

/-- Python `d.get(key, default)` on a dict. -/
def pyGet (d : Dict) (k : String) (dflt : JVal) : JVal :=
  (lookupKey d k).getD dflt

/-- Python `key in d` for a dict receiver. -/
def containsKey (d : Dict) (k : String) : Bool :=
  d.any fun p => p.1 == k

/-- View a value as a dict; `none` models the AttributeError raised when
`.get` is called on a non-dict receiver. -/
def asObj : JVal → Option Dict
  | .obj fs => some fs
  | _ => none

/-- Python equality test of a value against a string (used by list
membership): only equal strings compare equal. -/
def eqStr (k : String) : JVal → Bool
  | .str s => s == k
  | _ => false

/-- Whether the character list `sub` occurs contiguously in `s`. -/
def charsPrefix : List Char → List Char → Bool
  | [], _ => true
  | _ :: _, [] => false
  | a :: as, b :: bs => a == b && charsPrefix as bs

/-- Python substring containment `sub in s` for strings. -/
def strContains (s sub : String) : Bool :=
  (List.range (s.length + 1)).any fun i => charsPrefix sub.data (s.data.drop i)

/-- Python `key in v`: key membership for dicts, substring test for
strings, element equality for lists; `none` models the TypeError on other
receivers. -/
def pyIn (k : String) : JVal → Option Bool
  | .obj fs => some (containsKey fs k)
  | .str s => some (strContains s k)
  | .arr xs => some (xs.any (eqStr k))
  | _ => none

/-- Python iteration `for x in v`: lists yield elements, dicts yield their
keys, strings yield one-character strings; `none` models the TypeError on
other receivers. -/
def pyIter : JVal → Option (List JVal)
  | .arr xs => some xs
  | .obj fs => some (fs.map fun p => JVal.str p.1)
  | .str s => some (s.data.map fun c => JVal.str (String.mk [c]))
  | _ => none

/-- Embedding of `extract_holding_fields` from portfolio_utils.py: builds
the flat 16-field record from the nested `holding` and `security_info`
dicts. `none` models the AttributeError when the `account` value (or its
`institution` value) is present but not a dict. -/
def extract_holding_fields (holding security_info : Dict) : Option Dict := do
  let account_info ← asObj (pyGet holding "account" (.obj []))
  let institution_info ← asObj (pyGet account_info "institution" (.obj []))
  some [
    ("account_id", pyGet account_info "id" (.str "")),
    ("account_name", pyGet account_info "displayName" (.str "")),
    ("account_mask", pyGet account_info "mask" (.str "")),
    ("institution_name", pyGet institution_info "name" (.str "")),
    ("holding_name", pyGet holding "name" (.str "")),
    ("ticker", pyGet holding "ticker" (.str "")),
    ("type", pyGet holding "type" (.str "")),
    ("type_display", pyGet holding "typeDisplay" (.str "")),
    ("quantity", pyGet holding "quantity" (.num 0)),
    ("closing_price", pyGet holding "closingPrice" (.num 0)),
    ("value", pyGet holding "value" (.num 0)),
    ("security_id", pyGet security_info "id" (.str "")),
    ("security_name", pyGet security_info "name" (.str "")),
    ("security_ticker", pyGet security_info "ticker" (.str "")),
    ("current_price", pyGet security_info "currentPrice" (.num 0)),
    ("price_updated", pyGet security_info "currentPriceUpdatedAt" (.str ""))
  ]

/-- Call `extract_holding_fields` on raw values, as the navigation loops
do: failure when either argument is not a dict (the `.get` calls inside
the Python function would raise). -/
def extractJ (holding security_info : JVal) : Option Dict := do
  let h ← asObj holding
  let s ← asObj security_info
  extract_holding_fields h s

/-- Records produced for one edge by the loop body of
`write_portfolio_to_csv` in getportfolio.py: `node = edge.get("node", {})`,
`security_info = node.get("security", {})`, `holdings = node.get("holdings", [])`,
then one `extract_holding_fields` call per holding. -/
def edgeRecordsGet (edge : JVal) : Option (List Dict) := do
  let edgeObj ← asObj edge
  let nodeObj ← asObj (pyGet edgeObj "node" (.obj []))
  let security_info := pyGet nodeObj "security" (.obj [])
  let holdings ← pyIter (pyGet nodeObj "holdings" (.arr []))
  holdings.mapM fun holding => extractJ holding security_info

/-- Records produced for one edge by the loop body of `process_portfolio`
in parse_portfolio.py; `security_info` is re-read from the node inside the
inner loop. -/
def edgeRecordsParse (edge : JVal) : Option (List Dict) := do
  let edgeObj ← asObj edge
  let nodeObj ← asObj (pyGet edgeObj "node" (.obj []))
  let individual_holdings ← pyIter (pyGet nodeObj "holdings" (.arr []))
  individual_holdings.mapM fun holding =>
    extractJ holding (pyGet nodeObj "security" (.obj []))

/-- The flattened `holdings_list` built by `write_portfolio_to_csv` in
getportfolio.py: guarded navigation
`if "portfolio" in portfolio and "aggregateHoldings" in portfolio["portfolio"]`
followed by `.get("edges", [])` and the per-edge loop. -/
def getHoldingsList (portfolio : Dict) : Option (List Dict) :=
  match lookupKey portfolio "portfolio" with
  | none => some []
  | some pv =>
    match pyIn "aggregateHoldings" pv with
    | none => none
    | some false => some []
    | some true =>
      match pv with
      | .obj pvd => do
        let agg ← asObj ((lookupKey pvd "aggregateHoldings").getD .null)
        let edges ← pyIter (pyGet agg "edges" (.arr []))
        let rss ← edges.mapM edgeRecordsGet
        some rss.flatten
      | _ => none

/-- The flattened `holdings_list` built by `process_portfolio` in
parse_portfolio.py before its sort: a chain of `.get` calls with
empty-dict defaults down to `edges`, followed by the per-edge loop. -/
def processHoldingsList (data : Dict) : Option (List Dict) := do
  let pv ← asObj (pyGet data "portfolio" (.obj []))
  let agg ← asObj (pyGet pv "aggregateHoldings" (.obj []))
  let edges ← pyIter (pyGet agg "edges" (.arr []))
  let rss ← edges.mapM edgeRecordsParse
  some rss.flatten

/-- Embedding of `write_portfolio_to_csv` from getportfolio.py as a file
effect: `none` is a crash during flattening, `some none` is the early
return with no file touched (empty holdings list), and `some (some rows)`
means the CSV file was written with exactly `rows` as its data rows (the
header row is separate). -/
def write_portfolio_to_csv (portfolio : Dict) : Option (Option (List Dict)) :=
  match getHoldingsList portfolio with
  | none => none
  | some [] => some none
  | some holdings_list => some (some holdings_list)

/-- The rational behind a numeric `value` field, if the field is a number. -/
def valueNum (d : Dict) : Option ℚ :=
  match lookupKey d "value" with
  | some (.num q) => some q
  | _ => none

/-- Sort key used by `df.sort_values(by="value", ascending=False)`. -/
def valueQ (d : Dict) : ℚ :=
  (valueNum d).getD 0

/-- Embedding of `process_portfolio` from parse_portfolio.py: flatten, then
sort by the `value` column in descending order. pandas raises when the
empty DataFrame has no `value` column to sort by, and when the column is
not comparable; we model the numeric-column case and map those library
errors to `none`. -/
def process_portfolio (data : Dict) : Option (List Dict) := do
  let holdings_list ← processHoldingsList data
  let _ ← holdings_list.mapM valueNum
  match holdings_list with
  | [] => none
  | _ => some (holdings_list.insertionSort fun a b => valueQ b ≤ valueQ a)

/-- Number of entries in the holdings list of the node of one edge. -/
def edgeHoldingsCount (edge : JVal) : Option Nat := do
  let edgeObj ← asObj edge
  let nodeObj ← asObj (pyGet edgeObj "node" (.obj []))
  let hs ← pyIter (pyGet nodeObj "holdings" (.arr []))
  some hs.length

/-- Total number of holding entries in the portfolio, per the data model:
the sum, over all edges, of the length of the holdings list of the node of
the edge. -/
def specTotalHoldings (p : Dict) : Option Nat := do
  let pv ← asObj (pyGet p "portfolio" (.obj []))
  let agg ← asObj (pyGet pv "aggregateHoldings" (.obj []))
  let edges ← pyIter (pyGet agg "edges" (.arr []))
  let counts ← edges.mapM edgeHoldingsCount
  some counts.sum

/-! ## Trace model of the effectful sync routines

getportfolio.py and main.py both define an async `sync_monarch_to_sheets`
with an identical credential-loading and login prologue. We model the
external world (credentials file, environment variables, the Monarch API)
as an oracle environment and each routine as a pure function from that
environment to the list of observable events it performs plus its outcome. -/

/-- Observable events of the sync routines. -/
inductive Event where
  | loginAttempt
  | mfaAttempt
  | fetchPortfolio
  | writeJson
  | writeCsv
  | fetchAccounts
  | holdingsCall
  | writeMainCsv
deriving DecidableEq, Repr

/-- Outcome of `mm.login`. -/
inductive LoginResult where
  | ok
  | requireMFA
  | otherError
deriving DecidableEq, Repr

/-- How a run of a sync routine ends. -/
inductive Outcome where
  | ok
  | runtimeError
  | loginError
  | mfaError
  | fetchError
  | csvError
deriving DecidableEq, Repr

/-- An account as consumed by main.py (only the fields it touches). -/
structure MAccount where
  typeName : String

/-- Oracle environment: credentials sources and responses of the external
Monarch API. -/
structure Env where
  credFileExists : Bool
  credFileEmail : Option String
  credFilePassword : Option String
  envEmail : Option String
  envPassword : Option String
  loginResult : LoginResult
  mfaOk : Bool
  fetchOk : Bool
  portfolio : Dict
  accountsOk : Bool
  accounts : List MAccount

/-- Python truthiness of an optional string: `None` and the empty string
are falsy. -/
def truthy : Option String → Bool
  | none => false
  | some s => !(s == "")

/-- Embedding of the nested `load_credentials`: the file wins when it
exists (no fallback to env vars for fields it lacks); otherwise the
MONARCH_EMAIL / MONARCH_PASSWORD environment variables. -/
def load_credentials (e : Env) : Option String × Option String :=
  if e.credFileExists then (e.credFileEmail, e.credFilePassword)
  else (e.envEmail, e.envPassword)

/-- The shared credential check and login/MFA prologue of both sync
routines (the Python code is duplicated verbatim in the two files):
`some o` aborts the run with outcome `o`, `none` proceeds past login. -/
def loginPhase (e : Env) : List Event × Option Outcome :=
  let email := (load_credentials e).1
  let password := (load_credentials e).2
  if !truthy email || !truthy password then
    ([], some .runtimeError)
  else
    match e.loginResult with
    | .ok => ([.loginAttempt], none)
    | .requireMFA =>
      if e.mfaOk then ([.loginAttempt, .mfaAttempt], none)
      else ([.loginAttempt, .mfaAttempt], some .mfaError)
    | .otherError => ([.loginAttempt], some .loginError)

/-- Post-login body of `sync_monarch_to_sheets` in getportfolio.py: fetch
the portfolio, dump it to the JSON file, then optionally write the CSV via
`write_portfolio_to_csv`. -/
def afterLogin (e : Env) (csv_file : Option String) (pre : List Event) :
    List Event × Outcome :=
  if !e.fetchOk then (pre ++ [.fetchPortfolio], .fetchError)
  else
    let pre2 := pre ++ [.fetchPortfolio, .writeJson]
    match csv_file with
    | none => (pre2, .ok)
    | some _ =>
      match write_portfolio_to_csv e.portfolio with
      | none => (pre2, .csvError)
      | some none => (pre2, .ok)
      | some (some _) => (pre2 ++ [.writeCsv], .ok)

/-- Embedding of `sync_monarch_to_sheets` from getportfolio.py. -/
def sync_monarch_to_sheets (e : Env) (csv_file : Option String) :
    List Event × Outcome :=
  match loginPhase e with
  | (tr, some o) => (tr, o)
  | (tr, none) => afterLogin e csv_file tr

/-- Post-login body of `sync_monarch_to_sheets` in main.py: fetch all
accounts, call `get_holdings` once per Investment/Equity account, then
write monarch_data.csv once. -/
def afterLoginMain (e : Env) (pre : List Event) : List Event × Outcome :=
  if !e.accountsOk then (pre ++ [.fetchAccounts], .fetchError)
  else
    let calls := (e.accounts.filter fun a =>
      a.typeName == "Investment" || a.typeName == "Equity").map
      fun _ => Event.holdingsCall
    (pre ++ [.fetchAccounts] ++ calls ++ [.writeMainCsv], .ok)

/-- Embedding of `sync_monarch_to_sheets` from main.py (same prologue,
different body). -/
def main_sync_monarch_to_sheets (e : Env) : List Event × Outcome :=
  match loginPhase e with
  | (tr, some o) => (tr, o)
  | (tr, none) => afterLoginMain e tr

/-! ## Trace model of the pipeline dispatcher (run_scripts.py) -/

/-- The three steps `run_full_pipeline` can execute. -/
inductive Step where
  | fetch
  | parseCsv
  | parseMd
deriving DecidableEq, Repr

/-- Exit codes returned by the three subprocess invocations. -/
structure PipelineEnv where
  fetchCode : Int
  csvCode : Int
  mdCode : Int

/-- The exit code a given step returns in environment `e`. -/
def stepCode (e : PipelineEnv) : Step → Int
  | .fetch => e.fetchCode
  | .parseCsv => e.csvCode
  | .parseMd => e.mdCode

/-- Embedding of `run_full_pipeline` from run_scripts.py: fetch unless
`skip_fetch`, then parse to CSV, then parse to Markdown, returning the
first non-zero exit code immediately, else 0. Returns the list of steps
executed and the exit code. -/
def run_full_pipeline (e : PipelineEnv) (skip_fetch : Bool) :
    List Step × Int :=
  if !skip_fetch && e.fetchCode ≠ 0 then ([.fetch], e.fetchCode)
  else
    let pre : List Step := if skip_fetch then [] else [.fetch]
    if e.csvCode ≠ 0 then (pre ++ [.parseCsv], e.csvCode)
    else if e.mdCode ≠ 0 then (pre ++ [.parseCsv, .parseMd], e.mdCode)
    else (pre ++ [.parseCsv, .parseMd], 0)

/-! ## Field tables and basic lemmas -/

/-- The 16 output field names of a flat holding record, in the insertion
order of the Python dict literal. -/
def fieldNames : List String :=
  ["account_id", "account_name", "account_mask", "institution_name",
   "holding_name", "ticker", "type", "type_display", "quantity",
   "closing_price", "value", "security_id", "security_name",
   "security_ticker", "current_price", "price_updated"]

/-- Output fields projected directly out of the `holding` dict:
output key, source key, default. -/
def holdingFieldSpec : List (String × String × JVal) :=
  [("holding_name", "name", .str ""),
   ("ticker", "ticker", .str ""),
   ("type", "type", .str ""),
   ("type_display", "typeDisplay", .str ""),
   ("quantity", "quantity", .num 0),
   ("closing_price", "closingPrice", .num 0),
   ("value", "value", .num 0)]

/-- Output fields projected out of the `security_info` dict. -/
def securityFieldSpec : List (String × String × JVal) :=
  [("security_id", "id", .str ""),
   ("security_name", "name", .str ""),
   ("security_ticker", "ticker", .str ""),
   ("current_price", "currentPrice", .num 0),
   ("price_updated", "currentPriceUpdatedAt", .str "")]

/-- Output fields projected out of the nested `account` dict. -/
def accountFieldSpec : List (String × String × JVal) :=
  [("account_id", "id", .str ""),
   ("account_name", "displayName", .str ""),
   ("account_mask", "mask", .str "")]

theorem pyGet_of_none {d : Dict} {k : String} {df : JVal}
    (h : lookupKey d k = none) : pyGet d k df = df := by
  simp [pyGet, h]

theorem pyGet_of_some {d : Dict} {k : String} {v df : JVal}
    (h : lookupKey d k = some v) : pyGet d k df = v := by
  simp [pyGet, h]

/-- Successful runs of `extract_holding_fields` produce exactly the
16-entry record built from the two nested sub-dicts. -/
theorem extract_eq (h s d : Dict) (hd : extract_holding_fields h s = some d) :
    ∃ ai ii, asObj (pyGet h "account" (.obj [])) = some ai ∧
      asObj (pyGet ai "institution" (.obj [])) = some ii ∧
      d = [("account_id", pyGet ai "id" (.str "")),
           ("account_name", pyGet ai "displayName" (.str "")),
           ("account_mask", pyGet ai "mask" (.str "")),
           ("institution_name", pyGet ii "name" (.str "")),
           ("holding_name", pyGet h "name" (.str "")),
           ("ticker", pyGet h "ticker" (.str "")),
           ("type", pyGet h "type" (.str "")),
           ("type_display", pyGet h "typeDisplay" (.str "")),
           ("quantity", pyGet h "quantity" (.num 0)),
           ("closing_price", pyGet h "closingPrice" (.num 0)),
           ("value", pyGet h "value" (.num 0)),
           ("security_id", pyGet s "id" (.str "")),
           ("security_name", pyGet s "name" (.str "")),
           ("security_ticker", pyGet s "ticker" (.str "")),
           ("current_price", pyGet s "currentPrice" (.num 0)),
           ("price_updated", pyGet s "currentPriceUpdatedAt" (.str ""))] := by
  unfold extract_holding_fields at hd
  cases hai : asObj (pyGet h "account" (.obj [])) with
  | none => rw [hai] at hd; simp at hd
  | some ai =>
    rw [hai] at hd
    simp only [Option.bind_eq_bind', Option.some_bind] at hd
    cases hii : asObj (pyGet ai "institution" (.obj [])) with
    | none => rw [hii] at hd; simp at hd
    | some ii =>
      rw [hii] at hd
      simp only [Option.bind_eq_bind', Option.some_bind,
        Option.some.injEq] at hd
      exact ⟨ai, ii, rfl, hii, hd.symm⟩

/-! ## Concrete example data used by the witnesses -/

/-- A fully populated holding dict. -/
def exHolding : Dict :=
  [("account", .obj [("id", .str "a1"), ("displayName", .str "Checking"),
      ("mask", .str "1234"),
      ("institution", .obj [("name", .str "Bank")])]),
   ("name", .str "Apple"), ("ticker", .str "AAPL"), ("type", .str "stock"),
   ("typeDisplay", .str "Stock"), ("quantity", .num 3),
   ("closingPrice", .num 10), ("value", .num 30)]

/-- A fully populated security dict. -/
def exSecurity : Dict :=
  [("id", .str "s1"), ("name", .str "Apple Inc"), ("ticker", .str "AAPL"),
   ("currentPrice", .num 11), ("currentPriceUpdatedAt", .str "2024")]

/-- The record `extract_holding_fields` produces on the example data. -/
def exRecord : Dict :=
  [("account_id", .str "a1"), ("account_name", .str "Checking"),
   ("account_mask", .str "1234"), ("institution_name", .str "Bank"),
   ("holding_name", .str "Apple"), ("ticker", .str "AAPL"),
   ("type", .str "stock"), ("type_display", .str "Stock"),
   ("quantity", .num 3), ("closing_price", .num 10), ("value", .num 30),
   ("security_id", .str "s1"), ("security_name", .str "Apple Inc"),
   ("security_ticker", .str "AAPL"), ("current_price", .num 11),
   ("price_updated", .str "2024")]

/-- The all-defaults record, produced from two empty dicts. -/
def defaultRecord : Dict :=
  [("account_id", .str ""), ("account_name", .str ""),
   ("account_mask", .str ""), ("institution_name", .str ""),
   ("holding_name", .str ""), ("ticker", .str ""),
   ("type", .str ""), ("type_display", .str ""),
   ("quantity", .num 0), ("closing_price", .num 0), ("value", .num 0),
   ("security_id", .str ""), ("security_name", .str ""),
   ("security_ticker", .str ""), ("current_price", .num 0),
   ("price_updated", .str "")]

example : extract_holding_fields exHolding exSecurity = some exRecord := rfl

example : extract_holding_fields [] [] = some defaultRecord := rfl

/-! ## C1 -/

/-- C1: on every successful run, `extract_holding_fields` returns a flat
record whose keys are exactly the 16 field names in order, each value
obtained by projecting the corresponding key out of the `holding` dict,
its nested `account` and `institution` sub-dicts, or the `security_info`
dict, with the written defaults. -/
theorem extract_projects_sixteen_fields (h s d : Dict)
    (hd : extract_holding_fields h s = some d) :
    d.map Prod.fst = fieldNames ∧
    ∃ ai ii, asObj (pyGet h "account" (.obj [])) = some ai ∧
      asObj (pyGet ai "institution" (.obj [])) = some ii ∧
      (∀ t ∈ accountFieldSpec, lookupKey d t.1 = some (pyGet ai t.2.1 t.2.2)) ∧
      lookupKey d "institution_name" = some (pyGet ii "name" (.str "")) ∧
      (∀ t ∈ holdingFieldSpec, lookupKey d t.1 = some (pyGet h t.2.1 t.2.2)) ∧
      (∀ t ∈ securityFieldSpec, lookupKey d t.1 = some (pyGet s t.2.1 t.2.2)) := by
  obtain ⟨ai, ii, hai, hii, rfl⟩ := extract_eq h s d hd
  refine ⟨rfl, ai, ii, hai, hii, ?_, rfl, ?_, ?_⟩
  · intro t ht
    simp only [accountFieldSpec, List.mem_cons, List.not_mem_nil,
      or_false] at ht
    rcases ht with rfl | rfl | rfl <;> rfl
  · intro t ht
    simp only [holdingFieldSpec, List.mem_cons, List.not_mem_nil,
      or_false] at ht
    rcases ht with rfl | rfl | rfl | rfl | rfl | rfl | rfl <;> rfl
  · intro t ht
    simp only [securityFieldSpec, List.mem_cons, List.not_mem_nil,
      or_false] at ht
    rcases ht with rfl | rfl | rfl | rfl | rfl <;> rfl

/-- Witness for C1 on the fully populated example. -/
theorem extract_projects_sixteen_fields_witness :
    List.map Prod.fst exRecord = fieldNames :=
  (extract_projects_sixteen_fields exHolding exSecurity exRecord rfl).1

/-! ## C2 -/

/-- C2: on every successful run of `extract_holding_fields`, a missing
source key (or a missing enclosing `account` / `institution` dict) makes
the corresponding output field default to the empty string for textual
fields and zero for numeric fields (the defaults recorded in the field
tables), and a present value is passed through unchanged. -/
theorem extract_defaults_missing_keys (h s d : Dict)
    (hd : extract_holding_fields h s = some d) :
    (∀ t ∈ holdingFieldSpec,
      (lookupKey h t.2.1 = none → lookupKey d t.1 = some t.2.2) ∧
      ∀ v, lookupKey h t.2.1 = some v → lookupKey d t.1 = some v) ∧
    (∀ t ∈ securityFieldSpec,
      (lookupKey s t.2.1 = none → lookupKey d t.1 = some t.2.2) ∧
      ∀ v, lookupKey s t.2.1 = some v → lookupKey d t.1 = some v) ∧
    (lookupKey h "account" = none →
      lookupKey d "account_id" = some (.str "") ∧
      lookupKey d "account_name" = some (.str "") ∧
      lookupKey d "account_mask" = some (.str "") ∧
      lookupKey d "institution_name" = some (.str "")) ∧
    ∀ ai, lookupKey h "account" = some (.obj ai) →
      (∀ t ∈ accountFieldSpec,
        (lookupKey ai t.2.1 = none → lookupKey d t.1 = some t.2.2) ∧
        ∀ v, lookupKey ai t.2.1 = some v → lookupKey d t.1 = some v) ∧
      (lookupKey ai "institution" = none →
        lookupKey d "institution_name" = some (.str "")) ∧
      ∀ ii, lookupKey ai "institution" = some (.obj ii) →
        (lookupKey ii "name" = none →
          lookupKey d "institution_name" = some (.str "")) ∧
        ∀ v, lookupKey ii "name" = some v →
          lookupKey d "institution_name" = some v := by
  obtain ⟨ai, ii, hai, hii, rfl⟩ := extract_eq h s d hd
  refine ⟨?_, ?_, ?_, ?_⟩
  · intro t ht
    simp only [holdingFieldSpec, List.mem_cons, List.not_mem_nil,
      or_false] at ht
    rcases ht with rfl | rfl | rfl | rfl | rfl | rfl | rfl <;>
      exact ⟨fun hn => by simp [lookupKey, pyGet_of_none hn],
             fun v hv => by simp [lookupKey, pyGet_of_some hv]⟩
  · intro t ht
    simp only [securityFieldSpec, List.mem_cons, List.not_mem_nil,
      or_false] at ht
    rcases ht with rfl | rfl | rfl | rfl | rfl <;>
      exact ⟨fun hn => by simp [lookupKey, pyGet_of_none hn],
             fun v hv => by simp [lookupKey, pyGet_of_some hv]⟩
  · intro hn
    rw [pyGet_of_none hn] at hai
    simp only [asObj, Option.some.injEq] at hai
    subst hai
    rw [show pyGet ([] : Dict) "institution" (.obj []) = .obj [] from rfl] at hii
    simp only [asObj, Option.some.injEq] at hii
    subst hii
    refine ⟨rfl, rfl, rfl, rfl⟩
  · intro ai2 hacc
    rw [pyGet_of_some hacc] at hai
    simp only [asObj, Option.some.injEq] at hai
    subst hai
    refine ⟨?_, ?_, ?_⟩
    · intro t ht
      simp only [accountFieldSpec, List.mem_cons, List.not_mem_nil,
        or_false] at ht
      rcases ht with rfl | rfl | rfl <;>
        exact ⟨fun hn => by simp [lookupKey, pyGet_of_none hn],
               fun v hv => by simp [lookupKey, pyGet_of_some hv]⟩
    · intro hn
      rw [pyGet_of_none hn] at hii
      simp only [asObj, Option.some.injEq] at hii
      subst hii
      rfl
    · intro ii2 hinst
      rw [pyGet_of_some hinst] at hii
      simp only [asObj, Option.some.injEq] at hii
      subst hii
      exact ⟨fun hn => by simp [lookupKey, pyGet_of_none hn],
             fun v hv => by simp [lookupKey, pyGet_of_some hv]⟩

/-- Witness for C2 on two empty dicts: the textual `ticker` field and the
numeric `quantity` field take their defaults. -/
theorem extract_defaults_missing_keys_witness :
    lookupKey defaultRecord "ticker" = some (.str "") ∧
    lookupKey defaultRecord "quantity" = some (.num 0) :=
  ⟨((extract_defaults_missing_keys [] [] defaultRecord rfl).1
      ("ticker", "ticker", .str "") (by simp [holdingFieldSpec])).1 rfl,
   ((extract_defaults_missing_keys [] [] defaultRecord rfl).1
      ("quantity", "quantity", .num 0) (by simp [holdingFieldSpec])).1 rfl⟩

/-! ## C3: the two flattening pipelines agree -/

theorem lookupKey_of_not_containsKey {d : Dict} {k : String}
    (h : containsKey d k = false) : lookupKey d k = none := by
  induction d with
  | nil => rfl
  | cons p rest ih =>
    obtain ⟨k0, v⟩ := p
    simp only [containsKey, List.any_cons, Bool.or_eq_false_iff] at h
    simp only [lookupKey]
    rw [if_neg (by simpa using h.1)]
    exact ih (by simpa [containsKey] using h.2)

theorem lookupKey_of_containsKey {d : Dict} {k : String}
    (h : containsKey d k = true) : ∃ v, lookupKey d k = some v := by
  induction d with
  | nil => simp [containsKey] at h
  | cons p rest ih =>
    obtain ⟨k0, v⟩ := p
    simp only [containsKey, List.any_cons, Bool.or_eq_true] at h
    by_cases hk : k0 = k
    · exact ⟨v, by simp [lookupKey, hk]⟩
    · have hr : containsKey rest k = true := by
        rcases h with h | h
        · exact absurd (by simpa using h) hk
        · simpa [containsKey] using h
      obtain ⟨w, hw⟩ := ih hr
      exact ⟨w, by simp [lookupKey, hk, hw]⟩

/-- The two per-edge loop bodies compute the same records. -/
theorem edgeRecords_eq : edgeRecordsGet = edgeRecordsParse := rfl

/-- Evaluation of the parse navigation when the `portfolio` value
navigated into is the empty dict. -/
theorem processTail_empty :
    ((asObj (JVal.obj [])).bind fun pv =>
      (asObj (pyGet pv "aggregateHoldings" (.obj []))).bind fun agg =>
      (pyIter (pyGet agg "edges" (.arr []))).bind fun edges =>
      (edges.mapM edgeRecordsParse).bind fun rss =>
      some rss.flatten) = some [] := rfl

/-- Whenever the parse_portfolio navigation produces a flattened list, the
getportfolio navigation produces the same list. -/
theorem processHoldings_imp_getHoldings (p : Dict) (l : List Dict)
    (hp : processHoldingsList p = some l) : getHoldingsList p = some l := by
  unfold processHoldingsList at hp
  simp only [Option.bind_eq_bind'] at hp
  cases hk : lookupKey p "portfolio" with
  | none =>
    rw [pyGet_of_none hk, processTail_empty] at hp
    unfold getHoldingsList
    rw [hk]
    exact hp
  | some pv =>
    rw [pyGet_of_some hk] at hp
    cases pv with
    | obj pvd =>
      rw [show asObj (JVal.obj pvd) = some pvd from rfl] at hp
      simp only [Option.some_bind] at hp
      unfold getHoldingsList
      rw [hk]
      cases hc : containsKey pvd "aggregateHoldings" with
      | false =>
        rw [pyGet_of_none (lookupKey_of_not_containsKey hc)] at hp
        have he : ((asObj (JVal.obj ([] : Dict))).bind fun agg =>
            (pyIter (pyGet agg "edges" (.arr []))).bind fun edges =>
            (edges.mapM edgeRecordsParse).bind fun rss =>
            some rss.flatten) = some ([] : List Dict) := rfl
        rw [he] at hp
        simp [pyIn, hc]
        simpa using hp
      | true =>
        obtain ⟨av, hav⟩ := lookupKey_of_containsKey hc
        rw [pyGet_of_some hav] at hp
        simp only [pyIn, hc]
        rw [hav]
        simp only [Option.bind_eq_bind', Option.getD_some]
        rw [edgeRecords_eq]
        exact hp
    | null => simp [asObj] at hp
    | bool b => simp [asObj] at hp
    | num q => simp [asObj] at hp
    | str s => simp [asObj] at hp
    | arr xs => simp [asObj] at hp

/-- A sparse holding dict: most keys missing. -/
def exHolding2 : Dict :=
  [("name", .str "Tiny"), ("value", .num 7)]

/-- The record produced for `exHolding2` with `exSecurity`. -/
def exRecord2 : Dict :=
  [("account_id", .str ""), ("account_name", .str ""),
   ("account_mask", .str ""), ("institution_name", .str ""),
   ("holding_name", .str "Tiny"), ("ticker", .str ""),
   ("type", .str ""), ("type_display", .str ""),
   ("quantity", .num 0), ("closing_price", .num 0), ("value", .num 7),
   ("security_id", .str "s1"), ("security_name", .str "Apple Inc"),
   ("security_ticker", .str "AAPL"), ("current_price", .num 11),
   ("price_updated", .str "2024")]

/-- A well-formed example portfolio with one edge and two holdings. -/
def exNode : JVal :=
  .obj [("security", .obj exSecurity),
        ("holdings", .arr [.obj exHolding, .obj exHolding2])]

def exPortfolio : Dict :=
  [("portfolio",
    .obj [("aggregateHoldings",
      .obj [("edges", .arr [.obj [("node", exNode)]])])])]

example : processHoldingsList exPortfolio = some [exRecord, exRecord2] := rfl

/-- C3: whenever the parse_portfolio pipeline flattens a portfolio into a
list of records (before its sort), the getportfolio pipeline flattens the
same portfolio into the identical list, in identical order. -/
theorem flatten_pipelines_agree (p : Dict) (l : List Dict)
    (hp : processHoldingsList p = some l) : getHoldingsList p = some l :=
  processHoldings_imp_getHoldings p l hp

/-- Witness for C3 on the two-holding example portfolio. -/
theorem flatten_pipelines_agree_witness :
    getHoldingsList exPortfolio = some [exRecord, exRecord2] :=
  flatten_pipelines_agree exPortfolio [exRecord, exRecord2] rfl

/-! ## C5: one CSV row per holding -/

theorem mapM_some_length {α β : Type} {f : α → Option β} :
    ∀ {xs : List α} {ys : List β}, xs.mapM f = some ys → ys.length = xs.length := by
  intro xs
  induction xs with
  | nil =>
    intro ys h
    simp only [List.mapM_nil, Option.pure_def, Option.some.injEq] at h
    simp [← h]
  | cons a as ih =>
    intro ys h
    rw [List.mapM_cons] at h
    cases hfa : f a with
    | none => rw [hfa] at h; simp at h
    | some b =>
      rw [hfa] at h
      cases hms : as.mapM f with
      | none => rw [hms] at h; simp at h
      | some bs =>
        rw [hms] at h
        simp only [Option.bind_eq_bind', Option.some_bind, Option.pure_def,
          Option.some.injEq] at h
        subst h
        simp [ih hms]

/-- One edge: the record list the getportfolio loop produces has exactly
as many entries as the holdings list of the node of the edge. -/
theorem edgeHoldingsCount_of_records {e : JVal} {rs : List Dict}
    (h : edgeRecordsGet e = some rs) : edgeHoldingsCount e = some rs.length := by
  unfold edgeRecordsGet at h
  unfold edgeHoldingsCount
  simp only [Option.bind_eq_bind'] at h ⊢
  cases he : asObj e with
  | none => rw [he] at h; simp at h
  | some eo =>
    rw [he] at h
    simp only [Option.some_bind] at h ⊢
    cases hn : asObj (pyGet eo "node" (.obj [])) with
    | none => rw [hn] at h; simp at h
    | some no =>
      rw [hn] at h
      simp only [Option.some_bind] at h ⊢
      cases hit : pyIter (pyGet no "holdings" (.arr [])) with
      | none => rw [hit] at h; simp at h
      | some hl =>
        rw [hit] at h
        simp only [Option.some_bind] at h ⊢
        exact congrArg some (mapM_some_length h).symm

/-- Lifting the previous lemma through the outer loop. -/
theorem mapM_counts_of_mapM_records :
    ∀ {edges : List JVal} {rss : List (List Dict)},
      edges.mapM edgeRecordsGet = some rss →
      edges.mapM edgeHoldingsCount = some (rss.map List.length) := by
  intro edges
  induction edges with
  | nil =>
    intro rss h
    simp only [List.mapM_nil, Option.pure_def, Option.some.injEq] at h
    subst h; rfl
  | cons e es ih =>
    intro rss h
    rw [List.mapM_cons] at h
    cases hre : edgeRecordsGet e with
    | none => rw [hre] at h; simp at h
    | some rs =>
      rw [hre] at h
      cases hres : es.mapM edgeRecordsGet with
      | none => rw [hres] at h; simp at h
      | some rss0 =>
        rw [hres] at h
        simp only [Option.bind_eq_bind', Option.some_bind, Option.pure_def,
          Option.some.injEq] at h
        subst h
        rw [List.mapM_cons, edgeHoldingsCount_of_records hre, ih hres]
        simp

/-- Evaluation of the count navigation when the `portfolio` value
navigated into is the empty dict. -/
theorem specTotalTail_empty :
    ((asObj (JVal.obj [])).bind fun pv =>
      (asObj (pyGet pv "aggregateHoldings" (.obj []))).bind fun agg =>
      (pyIter (pyGet agg "edges" (.arr []))).bind fun edges =>
      (edges.mapM edgeHoldingsCount).bind fun counts =>
      some counts.sum) = some 0 := rfl

/-- The flattened list of the getportfolio navigation has exactly the
total number of holding entries of the portfolio. -/
theorem getHoldings_length (p : Dict) (n : Nat) (l : List Dict)
    (hn : specTotalHoldings p = some n) (hl : getHoldingsList p = some l) :
    l.length = n := by
  unfold specTotalHoldings at hn
  unfold getHoldingsList at hl
  simp only [Option.bind_eq_bind'] at hn
  cases hk : lookupKey p "portfolio" with
  | none =>
    rw [hk] at hl
    rw [pyGet_of_none hk, specTotalTail_empty] at hn
    cases hl; cases hn; rfl
  | some pv =>
    rw [hk] at hl
    rw [pyGet_of_some hk] at hn
    cases pv with
    | obj pvd =>
      rw [show asObj (JVal.obj pvd) = some pvd from rfl] at hn
      simp only [Option.some_bind] at hn
      simp only [pyIn] at hl
      cases hc : containsKey pvd "aggregateHoldings" with
      | false =>
        rw [hc] at hl
        rw [pyGet_of_none (lookupKey_of_not_containsKey hc)] at hn
        have he : ((asObj (JVal.obj ([] : Dict))).bind fun agg =>
            (pyIter (pyGet agg "edges" (.arr []))).bind fun edges =>
            (edges.mapM edgeHoldingsCount).bind fun counts =>
            some counts.sum) = some 0 := rfl
        rw [he] at hn
        cases hl; cases hn; rfl
      | true =>
        rw [hc] at hl
        obtain ⟨av, hav⟩ := lookupKey_of_containsKey hc
        rw [pyGet_of_some hav] at hn
        rw [hav] at hl
        simp only [Option.bind_eq_bind', Option.getD_some] at hl
        cases av with
        | obj aggd =>
          rw [show asObj (JVal.obj aggd) = some aggd from rfl] at hn hl
          simp only [Option.some_bind] at hn hl
          cases hit : pyIter (pyGet aggd "edges" (.arr [])) with
          | none => rw [hit] at hn; simp at hn
          | some edges =>
            rw [hit] at hn hl
            simp only [Option.some_bind] at hn hl
            cases hm : edges.mapM edgeRecordsGet with
            | none => rw [hm] at hl; simp at hl
            | some rss =>
              rw [hm] at hl
              rw [mapM_counts_of_mapM_records hm] at hn
              simp only [Option.some_bind, Option.some.injEq] at hn hl
              subst hn; subst hl
              simp
        | null => simp [asObj] at hn
        | bool b => simp [asObj] at hn
        | num q => simp [asObj] at hn
        | str s => simp [asObj] at hn
        | arr xs => simp [asObj] at hn
    | null => simp [asObj] at hn
    | bool b => simp [asObj] at hn
    | num q => simp [asObj] at hn
    | str s => simp [asObj] at hn
    | arr xs => simp [asObj] at hn

/-- C5: one holding, one CSV row. With `n` the total number of entries in
the holdings lists across all edges of the portfolio: the flattened list
has `n` records, a CSV written by `write_portfolio_to_csv` has exactly `n`
data rows (zero rows are written when `n = 0`), and the CSV written by
`process_portfolio` also has `n` rows. -/
theorem one_row_per_holding (p : Dict) (n : Nat) (l : List Dict)
    (hn : specTotalHoldings p = some n) (hl : getHoldingsList p = some l) :
    l.length = n ∧
    (∀ w, write_portfolio_to_csv p = some w → (w.getD []).length = n) ∧
    (∀ l2, process_portfolio p = some l2 → l2.length = n) := by
  have hmain : l.length = n := getHoldings_length p n l hn hl
  refine ⟨hmain, ?_, ?_⟩
  · intro w hw
    unfold write_portfolio_to_csv at hw
    rw [hl] at hw
    cases l with
    | nil =>
      simp only [Option.some.injEq] at hw
      subst hw
      simpa using hmain
    | cons a as =>
      simp only [Option.some.injEq] at hw
      subst hw
      simpa using hmain
  · intro l2 h2
    unfold process_portfolio at h2
    simp only [Option.bind_eq_bind'] at h2
    cases hph : processHoldingsList p with
    | none => rw [hph] at h2; simp at h2
    | some l0 =>
      have hg := processHoldings_imp_getHoldings p l0 hph
      rw [hl] at hg
      injection hg with hg
      subst hg
      rw [hph] at h2
      simp only [Option.some_bind] at h2
      cases hv : l.mapM valueNum with
      | none => rw [hv] at h2; simp at h2
      | some ks =>
        rw [hv] at h2
        simp only [Option.some_bind] at h2
        cases l with
        | nil => simp at h2
        | cons a as =>
          simp only [Option.some.injEq] at h2
          subst h2
          rw [List.length_insertionSort]
          exact hmain

/-- Witness for C5 on the two-holding example portfolio. -/
theorem one_row_per_holding_witness :
    ([exRecord, exRecord2] : List Dict).length = 2 :=
  (one_row_per_holding exPortfolio 2 [exRecord, exRecord2] rfl rfl).1

/-! ## C8: process_portfolio output is sorted by value, descending -/

/-- C8: every DataFrame returned by `process_portfolio` (and hence the
CSV/Markdown rows written from it) is ordered by the `value` field in
non-increasing order. -/
theorem process_portfolio_sorted_desc (p : Dict) (l : List Dict)
    (h : process_portfolio p = some l) :
    List.Sorted (fun a b => valueQ b ≤ valueQ a) l := by
  unfold process_portfolio at h
  simp only [Option.bind_eq_bind'] at h
  cases hph : processHoldingsList p with
  | none => rw [hph] at h; simp at h
  | some l0 =>
    rw [hph] at h
    simp only [Option.some_bind] at h
    cases hv : l0.mapM valueNum with
    | none => rw [hv] at h; simp at h
    | some ks =>
      rw [hv] at h
      simp only [Option.some_bind] at h
      cases l0 with
      | nil => simp at h
      | cons a as =>
        simp only [Option.some.injEq] at h
        subst h
        haveI : IsTotal Dict fun a b => valueQ b ≤ valueQ a :=
          ⟨fun a b => (le_total (valueQ b) (valueQ a)).imp id id⟩
        haveI : IsTrans Dict fun a b => valueQ b ≤ valueQ a :=
          ⟨fun a b c hab hbc => le_trans hbc hab⟩
        exact List.sorted_insertionSort _ _

/-- Witness for C8: the example portfolio yields a two-row frame sorted by
descending value (30 before 7). -/
theorem process_portfolio_sorted_desc_witness :
    List.Sorted (fun a b => valueQ b ≤ valueQ a) [exRecord, exRecord2] :=
  process_portfolio_sorted_desc exPortfolio [exRecord, exRecord2] (by rfl)

/-! ## C9: no CSV file is touched when there are no holdings -/

/-- C9: when the flattened holdings list is empty, `write_portfolio_to_csv`
returns early without opening or writing the CSV file (and conversely it
writes the file exactly when the list is nonempty). -/
theorem write_csv_skips_when_empty (p : Dict) (l : List Dict)
    (hl : getHoldingsList p = some l) :
    (l = [] → write_portfolio_to_csv p = some none) ∧
    (l ≠ [] → write_portfolio_to_csv p = some (some l)) := by
  constructor
  · intro he
    subst he
    unfold write_portfolio_to_csv
    rw [hl]
  · intro hne
    unfold write_portfolio_to_csv
    rw [hl]
    cases l with
    | nil => exact absurd rfl hne
    | cons a as => rfl

/-- Witness for C9: a portfolio whose `edges` list is empty produces no
holdings, and the CSV file is left untouched. -/
theorem write_csv_skips_when_empty_witness :
    write_portfolio_to_csv
      [("portfolio", .obj [("aggregateHoldings", .obj [("edges", .arr [])])])] =
      some none :=
  (write_csv_skips_when_empty
    [("portfolio", .obj [("aggregateHoldings", .obj [("edges", .arr [])])])]
    [] rfl).1 rfl

/-! ## Trace lemmas for the sync routines -/

/-- Whether the selected credential source yields truthy email and
password (the negation of the RuntimeError condition). -/
def credsOk (e : Env) : Bool :=
  truthy (load_credentials e).1 && truthy (load_credentials e).2

/-- The post-login body of getportfolio appends only fetch/write events to
the trace, each of them at most once, and never a CSV write when no CSV
file was requested. -/
theorem afterLogin_suffix (e : Env) (csv : Option String) (pre : List Event) :
    ∃ rest, (afterLogin e csv pre).1 = pre ++ rest ∧
      rest.count Event.loginAttempt = 0 ∧
      rest.count Event.mfaAttempt = 0 ∧
      rest.count Event.fetchPortfolio ≤ 1 ∧
      rest.count Event.writeJson ≤ 1 ∧
      rest.count Event.writeCsv ≤ 1 ∧
      (csv = none → rest.count Event.writeCsv = 0) := by
  unfold afterLogin
  cases e.fetchOk with
  | false =>
    exact ⟨[.fetchPortfolio], rfl, by decide, by decide, by decide, by decide,
      by decide, fun _ => by decide⟩
  | true =>
    cases csv with
    | none =>
      exact ⟨[.fetchPortfolio, .writeJson], rfl, by decide, by decide,
        by decide, by decide, by decide, fun _ => by decide⟩
    | some f =>
      cases hw : write_portfolio_to_csv e.portfolio with
      | none =>
        exact ⟨[.fetchPortfolio, .writeJson], rfl, by decide, by decide,
          by decide, by decide, by decide, fun h => by simp at h⟩
      | some w =>
        cases w with
        | none =>
          exact ⟨[.fetchPortfolio, .writeJson], rfl, by decide, by decide,
            by decide, by decide, by decide, fun h => by simp at h⟩
        | some rows =>
          exact ⟨[.fetchPortfolio, .writeJson, .writeCsv], by simp, by decide,
            by decide, by decide, by decide, by decide, fun h => by simp at h⟩

/-- The post-login body of main.py appends only account/holdings/write
events to the trace. -/
theorem afterLoginMain_suffix (e : Env) (pre : List Event) :
    ∃ rest, (afterLoginMain e pre).1 = pre ++ rest ∧
      rest.count Event.loginAttempt = 0 ∧
      rest.count Event.mfaAttempt = 0 := by
  unfold afterLoginMain
  cases e.accountsOk with
  | false => exact ⟨[.fetchAccounts], rfl, by decide, by decide⟩
  | true =>
    refine ⟨[Event.fetchAccounts] ++ ((e.accounts.filter fun a =>
        a.typeName == "Investment" || a.typeName == "Equity").map fun _ =>
        Event.holdingsCall) ++ [Event.writeMainCsv], by simp, ?_, ?_⟩ <;>
      simp [List.count_append, List.count_replicate]

/-- Exhaustive description of the shared login prologue. -/
theorem loginPhase_cases (e : Env) :
    (credsOk e = false → loginPhase e = ([], some .runtimeError)) ∧
    (credsOk e = true → e.loginResult = .ok →
      loginPhase e = ([.loginAttempt], none)) ∧
    (credsOk e = true → e.loginResult = .requireMFA → e.mfaOk = true →
      loginPhase e = ([.loginAttempt, .mfaAttempt], none)) ∧
    (credsOk e = true → e.loginResult = .requireMFA → e.mfaOk = false →
      loginPhase e = ([.loginAttempt, .mfaAttempt], some .mfaError)) ∧
    (credsOk e = true → e.loginResult = .otherError →
      loginPhase e = ([.loginAttempt], some .loginError)) := by
  have hsplit : ∀ x y : Bool, (x && y) = true → x = true ∧ y = true := by decide
  refine ⟨?_, ?_, ?_, ?_, ?_⟩
  · intro hc
    unfold loginPhase
    have hcond : (!truthy (load_credentials e).1 ||
        !truthy (load_credentials e).2) = true := by
      rw [← Bool.not_and]
      unfold credsOk at hc
      rw [hc]
      rfl
    simp [hcond]
  · intro hc hlr
    obtain ⟨h1, h2⟩ := hsplit _ _ hc
    unfold loginPhase
    simp [h1, h2, hlr]
  · intro hc hlr hm
    obtain ⟨h1, h2⟩ := hsplit _ _ hc
    unfold loginPhase
    simp [h1, h2, hlr, hm]
  · intro hc hlr hm
    obtain ⟨h1, h2⟩ := hsplit _ _ hc
    unfold loginPhase
    simp [h1, h2, hlr, hm]
  · intro hc hlr
    obtain ⟨h1, h2⟩ := hsplit _ _ hc
    unfold loginPhase
    simp [h1, h2, hlr]

/-- The login prologue emits one of three traces: nothing (credentials
error), a single login attempt, or a login attempt followed by one MFA
attempt. -/
theorem loginPhase_trace_cases (e : Env) :
    (loginPhase e).1 = [] ∨ (loginPhase e).1 = [Event.loginAttempt] ∨
    (loginPhase e).1 = [Event.loginAttempt, Event.mfaAttempt] := by
  simp only [loginPhase]
  by_cases hcond : (!truthy (load_credentials e).1 ||
      !truthy (load_credentials e).2) = true
  · rw [if_pos hcond]
    simp
  · rw [if_neg hcond]
    cases e.loginResult with
    | ok => simp
    | requireMFA => cases e.mfaOk <;> simp
    | otherError => simp

theorem loginPhase_counts (e : Env) :
    (loginPhase e).1.count Event.loginAttempt ≤ 1 ∧
    (loginPhase e).1.count Event.mfaAttempt ≤ 1 := by
  rcases loginPhase_trace_cases e with h | h | h <;> rw [h] <;>
    exact ⟨by decide, by decide⟩

theorem loginPhase_stage_count (e : Env) (a : Event)
    (h1 : a ≠ Event.loginAttempt) (h2 : a ≠ Event.mfaAttempt) :
    (loginPhase e).1.count a = 0 := by
  rcases loginPhase_trace_cases e with h | h | h <;> rw [h] <;>
    simp [List.count_cons, List.count_nil, Ne.symm h1, Ne.symm h2]

/-- Login and MFA attempts happen only in the prologue: afterwards the
trace counts of both events are unchanged, in either sync routine. -/
theorem sync_trace_counts (e : Env) (csv : Option String) (a : Event)
    (ha : a = Event.loginAttempt ∨ a = Event.mfaAttempt) :
    (sync_monarch_to_sheets e csv).1.count a = (loginPhase e).1.count a ∧
    (main_sync_monarch_to_sheets e).1.count a = (loginPhase e).1.count a := by
  unfold sync_monarch_to_sheets main_sync_monarch_to_sheets
  cases hp : loginPhase e with
  | mk tr oo =>
    cases oo with
    | some o => exact ⟨rfl, rfl⟩
    | none =>
      constructor
      · obtain ⟨rest, hr, hrl, hrm, _, _, _, _⟩ := afterLogin_suffix e csv tr
        rcases ha with rfl | rfl <;> rw [hr, List.count_append] <;>
          simp [hrl, hrm]
      · obtain ⟨rest, hr, hrl, hrm⟩ := afterLoginMain_suffix e tr
        rcases ha with rfl | rfl <;> rw [hr, List.count_append] <;>
          simp [hrl, hrm]

/-! ## C4 -/

/-- C4: the try/except around login is a retry-once-with-MFA pattern. In
every run of either sync routine, login and MFA are each attempted at most
once; when login requires MFA (and credentials were found),
`multi_factor_authenticate` is attempted exactly once more; when login
raises any other exception, the run ends immediately with that failure and
no fetch or file-write event occurs. -/
theorem login_failure_handling (e : Env) (csv_file : Option String) :
    ((sync_monarch_to_sheets e csv_file).1.count Event.loginAttempt ≤ 1 ∧
     (sync_monarch_to_sheets e csv_file).1.count Event.mfaAttempt ≤ 1 ∧
     (main_sync_monarch_to_sheets e).1.count Event.loginAttempt ≤ 1 ∧
     (main_sync_monarch_to_sheets e).1.count Event.mfaAttempt ≤ 1) ∧
    (credsOk e = true → e.loginResult = .requireMFA →
      (sync_monarch_to_sheets e csv_file).1.count Event.mfaAttempt = 1 ∧
      (main_sync_monarch_to_sheets e).1.count Event.mfaAttempt = 1) ∧
    (credsOk e = true → e.loginResult = .otherError →
      sync_monarch_to_sheets e csv_file = ([Event.loginAttempt], .loginError) ∧
      main_sync_monarch_to_sheets e = ([Event.loginAttempt], .loginError)) := by
  obtain ⟨hsl, hml⟩ := sync_trace_counts e csv_file Event.loginAttempt (Or.inl rfl)
  obtain ⟨hsm, hmm⟩ := sync_trace_counts e csv_file Event.mfaAttempt (Or.inr rfl)
  obtain ⟨hc1, hc2⟩ := loginPhase_counts e
  obtain ⟨hrt, hok, hmfa1, hmfa2, herr⟩ := loginPhase_cases e
  refine ⟨⟨?_, ?_, ?_, ?_⟩, ?_, ?_⟩
  · rw [hsl]; exact hc1
  · rw [hsm]; exact hc2
  · rw [hml]; exact hc1
  · rw [hmm]; exact hc2
  · intro hc hlr
    have hone : (loginPhase e).1.count Event.mfaAttempt = 1 := by
      cases hm : e.mfaOk with
      | true => rw [hmfa1 hc hlr hm]; decide
      | false => rw [hmfa2 hc hlr hm]; decide
    exact ⟨by rw [hsm, hone], by rw [hmm, hone]⟩
  · intro hc hlr
    have hlp := herr hc hlr
    constructor
    · unfold sync_monarch_to_sheets
      rw [hlp]
    · unfold main_sync_monarch_to_sheets
      rw [hlp]

/-- Witness environment: valid credentials from the file, login requires
MFA, MFA succeeds, fetch succeeds. -/
def exEnvMFA : Env :=
  { credFileExists := true, credFileEmail := some "user",
    credFilePassword := some "pw", envEmail := none, envPassword := none,
    loginResult := .requireMFA, mfaOk := true, fetchOk := true,
    portfolio := exPortfolio, accountsOk := true, accounts := [] }

/-- Witness for C4: with valid credentials and a login that requires MFA,
exactly one MFA attempt occurs. -/
theorem login_failure_handling_witness :
    (sync_monarch_to_sheets exEnvMFA none).1.count Event.mfaAttempt = 1 :=
  ((login_failure_handling exEnvMFA none).2.1 rfl rfl).1

/-! ## C6 -/

/-- C6: in every run of `sync_monarch_to_sheets`, the portfolio fetch, the
JSON dump and the CSV write each happen at most once, and the CSV write
never happens when no CSV file argument was given. -/
theorem sync_stages_at_most_once (e : Env) (csv_file : Option String) :
    (sync_monarch_to_sheets e csv_file).1.count Event.fetchPortfolio ≤ 1 ∧
    (sync_monarch_to_sheets e csv_file).1.count Event.writeJson ≤ 1 ∧
    (sync_monarch_to_sheets e csv_file).1.count Event.writeCsv ≤ 1 ∧
    (csv_file = none →
      (sync_monarch_to_sheets e csv_file).1.count Event.writeCsv = 0) := by
  have hf := loginPhase_stage_count e Event.fetchPortfolio
    (by decide) (by decide)
  have hwj := loginPhase_stage_count e Event.writeJson (by decide) (by decide)
  have hwc := loginPhase_stage_count e Event.writeCsv (by decide) (by decide)
  unfold sync_monarch_to_sheets
  cases hp : loginPhase e with
  | mk tr oo =>
    rw [hp] at hf hwj hwc
    simp only at hf hwj hwc
    cases oo with
    | some o =>
      refine ⟨?_, ?_, ?_, fun _ => ?_⟩
      · show tr.count Event.fetchPortfolio ≤ 1
        rw [hf]; decide
      · show tr.count Event.writeJson ≤ 1
        rw [hwj]; decide
      · show tr.count Event.writeCsv ≤ 1
        rw [hwc]; decide
      · show tr.count Event.writeCsv = 0
        exact hwc
    | none =>
      obtain ⟨rest, hr, _, _, hrf, hrwj, hrwc, hrn⟩ :=
        afterLogin_suffix e csv_file tr
      refine ⟨?_, ?_, ?_, ?_⟩
      · show (afterLogin e csv_file tr).1.count Event.fetchPortfolio ≤ 1
        rw [hr, List.count_append, hf]
        simpa using hrf
      · show (afterLogin e csv_file tr).1.count Event.writeJson ≤ 1
        rw [hr, List.count_append, hwj]
        simpa using hrwj
      · show (afterLogin e csv_file tr).1.count Event.writeCsv ≤ 1
        rw [hr, List.count_append, hwc]
        simpa using hrwc
      · intro hn
        show (afterLogin e csv_file tr).1.count Event.writeCsv = 0
        rw [hr, List.count_append, hwc, hrn hn]

/-- Witness for C6: with no CSV argument, no CSV write event occurs. -/
theorem sync_stages_at_most_once_witness :
    (sync_monarch_to_sheets exEnvMFA none).1.count Event.writeCsv = 0 :=
  (sync_stages_at_most_once exEnvMFA none).2.2.2 rfl

/-! ## C10 -/

/-- C10: if neither the credentials file nor the environment variables
yield both a truthy email and a truthy password, both sync routines raise
RuntimeError with an empty trace: no login attempt, no fetch, and no file
write has happened. -/
theorem missing_credentials_abort (e : Env) (csv_file : Option String)
    (hf : (truthy e.credFileEmail && truthy e.credFilePassword) = false)
    (he : (truthy e.envEmail && truthy e.envPassword) = false) :
    sync_monarch_to_sheets e csv_file = ([], .runtimeError) ∧
    main_sync_monarch_to_sheets e = ([], .runtimeError) := by
  have hc : credsOk e = false := by
    unfold credsOk load_credentials
    cases e.credFileExists with
    | true => simpa using hf
    | false => simpa using he
  have hlp := (loginPhase_cases e).1 hc
  constructor
  · unfold sync_monarch_to_sheets
    rw [hlp]
  · unfold main_sync_monarch_to_sheets
    rw [hlp]

/-- Witness environment for C10: the credentials file exists but has an
empty password, and no environment variables are set. -/
def exEnvNoCreds : Env :=
  { credFileExists := true, credFileEmail := some "user",
    credFilePassword := some "", envEmail := none, envPassword := none,
    loginResult := .ok, mfaOk := true, fetchOk := true,
    portfolio := [], accountsOk := true, accounts := [] }

/-- Witness for C10. -/
theorem missing_credentials_abort_witness :
    sync_monarch_to_sheets exEnvNoCreds none = ([], .runtimeError) :=
  (missing_credentials_abort exEnvNoCreds none rfl rfl).1

/-! ## C7: the pipeline dispatcher -/

/-- The full step order of the pipeline for a given `skip_fetch` flag. -/
def pipelineOrder (skip_fetch : Bool) : List Step :=
  (if skip_fetch then [] else [Step.fetch]) ++ [Step.parseCsv, Step.parseMd]

/-- C7: `run_full_pipeline` executes a prefix of the order fetch,
parse-to-CSV, parse-to-Markdown (fetch skipped when `skip_fetch`), stops
at the first step returning a non-zero code and returns that code without
running later steps, and returns 0 exactly when every executed step
returned 0. -/
theorem run_full_pipeline_dispatch (e : PipelineEnv) (skip_fetch : Bool) :
    (∃ rest, (run_full_pipeline e skip_fetch).1 ++ rest =
      pipelineOrder skip_fetch) ∧
    (skip_fetch = false →
      (run_full_pipeline e skip_fetch).1.head? = some Step.fetch) ∧
    (skip_fetch = true →
      (run_full_pipeline e skip_fetch).1.head? = some Step.parseCsv) ∧
    ((run_full_pipeline e skip_fetch).2 = 0 ↔
      ∀ s ∈ (run_full_pipeline e skip_fetch).1, stepCode e s = 0) ∧
    ((run_full_pipeline e skip_fetch).2 ≠ 0 →
      ∃ pre last, (run_full_pipeline e skip_fetch).1 = pre ++ [last] ∧
        stepCode e last = (run_full_pipeline e skip_fetch).2 ∧
        ∀ s ∈ pre, stepCode e s = 0) := by
  cases skip_fetch with
  | false =>
    by_cases h1 : e.fetchCode = 0
    · by_cases h2 : e.csvCode = 0
      · by_cases h3 : e.mdCode = 0
        · have hr : run_full_pipeline e false =
              ([.fetch, .parseCsv, .parseMd], 0) := by
            unfold run_full_pipeline
            simp [h1, h2, h3]
          rw [hr]
          refine ⟨⟨[], by simp [pipelineOrder]⟩, fun _ => rfl,
            fun h => by simp at h, ?_, fun h => absurd rfl h⟩
          constructor
          · intro _ s hs
            simp only [List.mem_cons, List.not_mem_nil, or_false] at hs
            rcases hs with rfl | rfl | rfl <;> simp_all [stepCode]
          · intro _
            rfl
        · have hr : run_full_pipeline e false =
              ([.fetch, .parseCsv, .parseMd], e.mdCode) := by
            unfold run_full_pipeline
            simp [h1, h2, h3]
          rw [hr]
          refine ⟨⟨[], by simp [pipelineOrder]⟩, fun _ => rfl,
            fun h => by simp at h, ?_, fun _ => ?_⟩
          · constructor
            · intro h
              exact absurd h h3
            · intro hall
              exact absurd (hall .parseMd (by simp)) h3
          · refine ⟨[.fetch, .parseCsv], .parseMd, by simp, rfl, ?_⟩
            intro s hs
            simp only [List.mem_cons, List.not_mem_nil, or_false] at hs
            rcases hs with rfl | rfl <;> simp_all [stepCode]
      · have hr : run_full_pipeline e false =
            ([.fetch, .parseCsv], e.csvCode) := by
          unfold run_full_pipeline
          simp [h1, h2]
        rw [hr]
        refine ⟨⟨[.parseMd], by simp [pipelineOrder]⟩, fun _ => rfl,
          fun h => by simp at h, ?_, fun _ => ?_⟩
        · constructor
          · intro h
            exact absurd h h2
          · intro hall
            exact absurd (hall .parseCsv (by simp)) h2
        · refine ⟨[.fetch], .parseCsv, by simp, rfl, ?_⟩
          intro s hs
          simp only [List.mem_cons, List.not_mem_nil, or_false] at hs
          subst hs
          simp_all [stepCode]
    · have hr : run_full_pipeline e false = ([.fetch], e.fetchCode) := by
        unfold run_full_pipeline
        simp [h1]
      rw [hr]
      refine ⟨⟨[.parseCsv, .parseMd], by simp [pipelineOrder]⟩, fun _ => rfl,
        fun h => by simp at h, ?_, fun _ => ?_⟩
      · constructor
        · intro h
          exact absurd h h1
        · intro hall
          exact absurd (hall .fetch (by simp)) h1
      · exact ⟨[], .fetch, by simp, rfl, by simp⟩
  | true =>
    by_cases h2 : e.csvCode = 0
    · by_cases h3 : e.mdCode = 0
      · have hr : run_full_pipeline e true = ([.parseCsv, .parseMd], 0) := by
          unfold run_full_pipeline
          simp [h2, h3]
        rw [hr]
        refine ⟨⟨[], by simp [pipelineOrder]⟩, fun h => by simp at h,
          fun _ => rfl, ?_, fun h => absurd rfl h⟩
        constructor
        · intro _ s hs
          simp only [List.mem_cons, List.not_mem_nil, or_false] at hs
          rcases hs with rfl | rfl <;> simp_all [stepCode]
        · intro _
          rfl
      · have hr : run_full_pipeline e true =
            ([.parseCsv, .parseMd], e.mdCode) := by
          unfold run_full_pipeline
          simp [h2, h3]
        rw [hr]
        refine ⟨⟨[], by simp [pipelineOrder]⟩, fun h => by simp at h,
          fun _ => rfl, ?_, fun _ => ?_⟩
        · constructor
          · intro h
            exact absurd h h3
          · intro hall
            exact absurd (hall .parseMd (by simp)) h3
        · refine ⟨[.parseCsv], .parseMd, by simp, rfl, ?_⟩
          intro s hs
          simp only [List.mem_cons, List.not_mem_nil, or_false] at hs
          subst hs
          simp_all [stepCode]
    · have hr : run_full_pipeline e true = ([.parseCsv], e.csvCode) := by
        unfold run_full_pipeline
        simp [h2]
      rw [hr]
      refine ⟨⟨[.parseMd], by simp [pipelineOrder]⟩, fun h => by simp at h,
        fun _ => rfl, ?_, fun _ => ?_⟩
      · constructor
        · intro h
          exact absurd h h2
        · intro hall
          exact absurd (hall .parseCsv (by simp)) h2
      · exact ⟨[], .parseCsv, by simp, rfl, by simp⟩

/-- Witness for C7: a failing fetch makes the pipeline execute only the
fetch step. -/
theorem run_full_pipeline_dispatch_witness :
    (run_full_pipeline ⟨2, 0, 0⟩ false).1.head? = some Step.fetch :=
  (run_full_pipeline_dispatch ⟨2, 0, 0⟩ false).2.1 rfl

end Monarch
